import Mathlib

/-!
Verification of the hydrodynamics core of CMacIonize (HydroIntegrator.hpp).

This file gives a shallow embedding, over the real numbers, of the slope
limiter, the flux limiter, the flux-kernel boundary dispatch, the
constructor boundary checks, the hydro-variable initialisation and the
serial per-cell passes of a hydro step, and proves or refutes the claims
of the specification against these definitions.

Machine doubles are modelled as real numbers; DBL_MIN (smallest positive
normal double) is the constant dbl_min below.
-/

namespace CMacIonize

/-- Smallest positive normal double, the value of DBL_MIN in cfloat. -/
noncomputable def dbl_min : ℝ := 1 / 2 ^ 1022

theorem dbl_min_pos : 0 < dbl_min := by
  unfold dbl_min
  positivity

/-- Three-vector of reals, modelling CoordinateVector of double. -/
structure Vec3 where
  x : ℝ
  y : ℝ
  z : ℝ

namespace Vec3

theorem ext_iff {a b : Vec3} : a = b ↔ a.x = b.x ∧ a.y = b.y ∧ a.z = b.z := by
  cases a
  cases b
  simp [mk.injEq]

/-- Zero vector, the default CoordinateVector. -/
def zero : Vec3 := ⟨0, 0, 0⟩

instance : Add Vec3 := ⟨fun a b => ⟨a.x + b.x, a.y + b.y, a.z + b.z⟩⟩

instance : Sub Vec3 := ⟨fun a b => ⟨a.x - b.x, a.y - b.y, a.z - b.z⟩⟩

instance : Neg Vec3 := ⟨fun a => ⟨-a.x, -a.y, -a.z⟩⟩

instance : SMul ℝ Vec3 := ⟨fun c a => ⟨c * a.x, c * a.y, c * a.z⟩⟩

@[simp] theorem add_def (a b : Vec3) : a + b = ⟨a.x + b.x, a.y + b.y, a.z + b.z⟩ := rfl

@[simp] theorem sub_def (a b : Vec3) : a - b = ⟨a.x - b.x, a.y - b.y, a.z - b.z⟩ := rfl

@[simp] theorem neg_def (a : Vec3) : -a = ⟨-a.x, -a.y, -a.z⟩ := rfl

@[simp] theorem smul_def (c : ℝ) (a : Vec3) : c • a = ⟨c * a.x, c * a.y, c * a.z⟩ := rfl

/-- Dot product of two vectors (CoordinateVector dot_product). -/
def dot (a b : Vec3) : ℝ := a.x * b.x + a.y * b.y + a.z * b.z

/-- Squared norm (CoordinateVector norm2). -/
def norm2 (a : Vec3) : ℝ := a.x * a.x + a.y * a.y + a.z * a.z

/-- Euclidean norm (CoordinateVector norm). -/
noncomputable def norm (a : Vec3) : ℝ := Real.sqrt a.norm2

theorem norm2_nonneg (a : Vec3) : 0 ≤ a.norm2 := by
  have h : a.norm2 = a.x ^ 2 + a.y ^ 2 + a.z ^ 2 := by
    unfold norm2
    ring
  rw [h]
  positivity

theorem norm_nonneg (a : Vec3) : 0 ≤ a.norm := Real.sqrt_nonneg _

@[simp] theorem norm2_zero : norm2 zero = 0 := by simp [norm2, zero]

@[simp] theorem norm_zero : norm zero = 0 := by simp [norm]

theorem norm2_smul (c : ℝ) (a : Vec3) : norm2 (c • a) = c ^ 2 * norm2 a := by
  simp only [smul_def, norm2]
  ring

theorem norm_smul (c : ℝ) (a : Vec3) : norm (c • a) = |c| * norm a := by
  rw [norm, norm2_smul, Real.sqrt_mul (sq_nonneg c), Real.sqrt_sq_eq_abs, norm]

theorem norm_eq_zero_iff (a : Vec3) : a.norm = 0 ↔ a = zero := by
  constructor
  · intro h
    have h2 : a.norm2 = 0 := by
      have := Real.sqrt_eq_zero (norm2_nonneg a) |>.mp h
      exact this
    have hx := sq_nonneg a.x
    have hy := sq_nonneg a.y
    have hz := sq_nonneg a.z
    unfold norm2 at h2
    refine ext_iff.mpr ⟨?_, ?_, ?_⟩ <;> simp only [zero] <;> nlinarith
  · intro h
    rw [h]
    exact norm_zero

end Vec3

/-- Slope limiter constant psi1 of HydroFluxComputation limit. -/
noncomputable def psi1 : ℝ := 0.5

/-- Slope limiter constant psi2 of HydroFluxComputation limit. -/
noncomputable def psi2 : ℝ := 0.25

/-- Per-face slope limiter for a single quantity, transcribed from
HydroFluxComputation limit (HydroIntegrator.hpp lines 187 to 230). -/
noncomputable def limit (phimid0 phiL phiR dnrm_over_r : ℝ) : ℝ :=
  let delta1 := psi1 * |phiL - phiR|
  let delta2 := psi2 * |phiL - phiR|
  let phimin := min phiL phiR
  let phimax := max phiL phiR
  let phibar := phiL + dnrm_over_r * (phiR - phiL)
  let phiplus :=
    if (phimax + delta1) * phimax > 0 then phimax + delta1
    else phimax * |phimax| / (|phimax| + delta1 + dbl_min)
  let phiminus :=
    if (phimin - delta1) * phimin > 0 then phimin - delta1
    else phimin * |phimin| / (|phimin| + delta1 + dbl_min)
  if phiL = phiR then phiL
  else if phiL < phiR then max phiminus (min (phibar + delta2) phimid0)
  else min phiplus (max (phibar - delta2) phimid0)

/-- Modelled from the spec: the per-face limiter exactly as section 4.C of
the specification words it, with the sign-preserving rule phrased through
the sign function and epsilon the smallest positive normal value. -/
noncomputable def limit_spec (phimid0 phiL phiR dnrm_over_r : ℝ) : ℝ :=
  let delta1 := psi1 * |phiL - phiR|
  let delta2 := psi2 * |phiL - phiR|
  let phimin := min phiL phiR
  let phimax := max phiL phiR
  let phibar := phiL + dnrm_over_r * (phiR - phiL)
  let phiplus :=
    if Real.sign (phimax + delta1) = Real.sign phimax then phimax + delta1
    else phimax * |phimax| / (|phimax| + delta1 + dbl_min)
  let phiminus :=
    if Real.sign (phimin - delta1) = Real.sign phimin then phimin - delta1
    else phimin * |phimin| / (|phimin| + delta1 + dbl_min)
  if phiL = phiR then phiL
  else if phiL < phiR then max phiminus (min (phibar + delta2) phimid0)
  else min phiplus (max (phibar - delta2) phimid0)

theorem phiplus_cases (a d : ℝ) (hd : 0 ≤ d) :
    (if (a + d) * a > 0 then a + d else a * |a| / (|a| + d + dbl_min)) =
    (if Real.sign (a + d) = Real.sign a then a + d else a * |a| / (|a| + d + dbl_min)) := by
  rcases lt_trichotomy a 0 with ha | ha | ha
  · rcases lt_trichotomy (a + d) 0 with hb | hb | hb
    · rw [if_pos (mul_pos_of_neg_of_neg hb ha),
        if_pos (by rw [Real.sign_of_neg hb, Real.sign_of_neg ha])]
    · rw [if_neg (by rw [hb]; simp),
        if_neg (by rw [hb, Real.sign_zero, Real.sign_of_neg ha]; norm_num)]
    · rw [if_neg (by nlinarith),
        if_neg (by rw [Real.sign_of_pos hb, Real.sign_of_neg ha]; norm_num)]
  · subst ha
    have hsum : (0 : ℝ) + d = d := by ring
    rcases eq_or_lt_of_le hd with hd0 | hd0
    · subst hd0
      rw [if_neg (by norm_num), if_pos (by norm_num)]
      norm_num
    · rw [if_neg (by norm_num), if_neg (by
        rw [hsum, Real.sign_of_pos hd0, Real.sign_zero]; norm_num)]
  · have hb : 0 < a + d := by linarith
    rw [if_pos (mul_pos hb ha),
      if_pos (by rw [Real.sign_of_pos hb, Real.sign_of_pos ha])]

theorem phiminus_cases (a d : ℝ) (hd : 0 ≤ d) :
    (if (a - d) * a > 0 then a - d else a * |a| / (|a| + d + dbl_min)) =
    (if Real.sign (a - d) = Real.sign a then a - d else a * |a| / (|a| + d + dbl_min)) := by
  rcases lt_trichotomy a 0 with ha | ha | ha
  · have hb : a - d < 0 := by linarith
    rw [if_pos (mul_pos_of_neg_of_neg hb ha),
      if_pos (by rw [Real.sign_of_neg hb, Real.sign_of_neg ha])]
  · subst ha
    have hsub : (0 : ℝ) - d = -d := by ring
    rcases eq_or_lt_of_le hd with hd0 | hd0
    · subst hd0
      rw [if_neg (by norm_num), if_pos (by norm_num)]
      norm_num
    · rw [if_neg (by norm_num), if_neg (by
        rw [hsub, Real.sign_zero, Real.sign_of_neg (by linarith : -d < 0)]; norm_num)]
  · rcases lt_trichotomy (a - d) 0 with hb | hb | hb
    · rw [if_neg (by nlinarith),
        if_neg (by rw [Real.sign_of_neg hb, Real.sign_of_pos ha]; norm_num)]
    · rw [if_neg (by rw [hb]; simp),
        if_neg (by rw [hb, Real.sign_zero, Real.sign_of_pos ha]; norm_num)]
    · rw [if_pos (mul_pos hb ha),
        if_pos (by rw [Real.sign_of_pos hb, Real.sign_of_pos ha])]

/-- C2: for every reconstructed value, left and right values and distance
ratio, the per-face slope limiter returns exactly the piecewise value the
specification describes (phi_L on equality, the phi-minus window for
phi_L < phi_R, the phi-plus window for phi_L > phi_R, with the
sign-preserving rule for phi-plus and phi-minus). -/
theorem claim_C2 (phimid0 phiL phiR dnrm_over_r : ℝ) :
    limit phimid0 phiL phiR dnrm_over_r = limit_spec phimid0 phiL phiR dnrm_over_r := by
  have hd : 0 ≤ psi1 * |phiL - phiR| := by
    unfold psi1
    positivity
  simp only [limit, limit_spec]
  rw [phiplus_cases _ _ hd, phiminus_cases _ _ hd]

theorem max_min_max (a b x : ℝ) : max a (min b (max a (min b x))) = max a (min b x) := by
  rcases le_total a b with h | h
  · have h1 : max a (min b x) ≤ b := max_le h (min_le_left _ _)
    rw [min_eq_right h1, max_eq_right (le_max_left _ _)]
  · have h1 : max a (min b x) = a := max_eq_left ((min_le_left b x).trans h)
    rw [h1, min_eq_left h, max_eq_left h]

theorem min_max_min (a b x : ℝ) : min a (max b (min a (max b x))) = min a (max b x) := by
  rcases le_total b a with h | h
  · have h1 : b ≤ min a (max b x) := le_min h (le_max_left _ _)
    rw [max_eq_right h1, min_eq_right (min_le_left _ _)]
  · have h1 : min a (max b x) = a := min_eq_left (h.trans (le_max_left b x))
    rw [h1, max_eq_left h, min_eq_left h]

/-- C8: the slope limiter is idempotent: applying limit to its own output,
with the same left value, right value and distance ratio, returns that
output unchanged, for all real inputs. -/
theorem claim_C8 (phimid0 phiL phiR dnrm_over_r : ℝ) :
    limit (limit phimid0 phiL phiR dnrm_over_r) phiL phiR dnrm_over_r =
      limit phimid0 phiL phiR dnrm_over_r := by
  simp only [limit]
  rcases lt_trichotomy phiL phiR with h | h | h
  · rw [if_neg (ne_of_lt h), if_pos h, if_neg (ne_of_lt h), if_pos h]
    exact max_min_max _ _ _
  · simp [h]
  · rw [if_neg (ne_of_gt h), if_neg (not_lt_of_gt h), if_neg (ne_of_gt h),
      if_neg (not_lt_of_gt h)]
    exact min_max_min _ _ _

/-- Flux limiter constant, the FLUX_LIMITER macro (value 2). -/
noncomputable def flux_limiter : ℝ := 2

/-- Flux-limiting factor for one face, transcribed from
HydroFluxComputation limit_flux (HydroIntegrator.hpp lines 277 to 318). -/
noncomputable def limit_flux (mflux pflux2 Eflux mLfluxlimit pL2fluxlimit ELfluxlimit
    mRfluxlimit pR2fluxlimit ERfluxlimit : ℝ)
    (high_momentum_L high_momentum_R isothermal : Bool) : ℝ :=
  let f0 : ℝ := 1
  let f1 := if mflux > mLfluxlimit then mLfluxlimit / mflux else f0
  let f2 := if -mflux > mRfluxlimit then min f1 (-mRfluxlimit / mflux) else f1
  let f3 :=
    if isothermal then f2
    else
      let g1 := if Eflux > ELfluxlimit then min f2 (ELfluxlimit / Eflux) else f2
      if -Eflux > ERfluxlimit then min g1 (-ERfluxlimit / Eflux) else g1
  let f4 :=
    if high_momentum_L then
      if pflux2 > pL2fluxlimit then min f3 (Real.sqrt (pL2fluxlimit / pflux2)) else f3
    else f3
  if high_momentum_R then
    if pflux2 > pR2fluxlimit then min f4 (Real.sqrt (pR2fluxlimit / pflux2)) else f4
  else f4

theorem ite_min_unit {c : Prop} [Decidable c] (f r : ℝ)
    (hf : 0 ≤ f ∧ f ≤ 1) (hr : c → 0 ≤ r) :
    0 ≤ (if c then min f r else f) ∧ (if c then min f r else f) ≤ 1 := by
  split_ifs with h
  · exact ⟨le_min hf.1 (hr h), le_trans (min_le_left _ _) hf.2⟩
  · exact hf

theorem bool_ite_unit (b : Bool) (f g : ℝ) (hf : 0 ≤ f ∧ f ≤ 1) (hg : 0 ≤ g ∧ g ≤ 1) :
    0 ≤ (if b then f else g) ∧ (if b then f else g) ≤ 1 := by
  split_ifs
  · exact hf
  · exact hg

/-- C7: whenever the six flux limits are nonnegative, the flux-limiting
factor returned by limit_flux lies in the interval from 0 to 1, for every
real mass, momentum and energy flux and for every combination of the
high-momentum and isothermal flags (so the fluxfac assertion never fires). -/
theorem claim_C7 (mflux pflux2 Eflux mL pL2 EL mR pR2 ER : ℝ)
    (hmL : 0 ≤ mL) (hpL2 : 0 ≤ pL2) (hEL : 0 ≤ EL)
    (hmR : 0 ≤ mR) (hpR2 : 0 ≤ pR2) (hER : 0 ≤ ER)
    (hL hR iso : Bool) :
    0 ≤ limit_flux mflux pflux2 Eflux mL pL2 EL mR pR2 ER hL hR iso ∧
      limit_flux mflux pflux2 Eflux mL pL2 EL mR pR2 ER hL hR iso ≤ 1 := by
  simp only [limit_flux]
  have h1 : 0 ≤ (if mflux > mL then mL / mflux else (1 : ℝ)) ∧
      (if mflux > mL then mL / mflux else (1 : ℝ)) ≤ 1 := by
    split_ifs with h
    · have hm : 0 < mflux := lt_of_le_of_lt hmL h
      exact ⟨by positivity, by rw [div_le_one hm]; linarith⟩
    · norm_num
  have h2 := ite_min_unit _ (-mR / mflux) h1 (fun h : -mflux > mR => by
    have hm : 0 < -mflux := lt_of_le_of_lt hmR h
    have e : -mR / mflux = mR / (-mflux) := by ring
    rw [e]
    positivity)
  have hg1 := ite_min_unit _ (EL / Eflux) h2 (fun h : Eflux > EL => by
    have hm : 0 < Eflux := lt_of_le_of_lt hEL h
    positivity)
  have hg2 := ite_min_unit _ (-ER / Eflux) hg1 (fun h : -Eflux > ER => by
    have hm : 0 < -Eflux := lt_of_le_of_lt hER h
    have e : -ER / Eflux = ER / (-Eflux) := by ring
    rw [e]
    positivity)
  have h3 := bool_ite_unit iso _ _ h2 hg2
  have h4 := bool_ite_unit hL _ _
    (ite_min_unit _ (Real.sqrt (pL2 / pflux2)) h3 (fun _ : pflux2 > pL2 => Real.sqrt_nonneg _)) h3
  exact bool_ite_unit hR _ _
    (ite_min_unit _ (Real.sqrt (pR2 / pflux2)) h4 (fun _ : pflux2 > pR2 => Real.sqrt_nonneg _)) h4

theorem claim_C7_witness :
    (0 ≤ (0 : ℝ)) ∧
      (0 ≤ limit_flux 0 0 0 0 0 0 0 0 0 false false false ∧
        limit_flux 0 0 0 0 0 0 0 0 0 false false false ≤ 1) :=
  ⟨le_refl 0,
    claim_C7 0 0 0 0 0 0 0 0 0 le_rfl le_rfl le_rfl le_rfl le_rfl le_rfl false false false⟩

/-- Per-face flux-limiter invocation of the flux kernel, transcribed from
HydroFluxComputation operator() (HydroIntegrator.hpp lines 565 to 574,
631 to 651 and 708 to 719): the per-cell limits, the squared momentum
limits, the high-momentum indicators and the isothermal flag exactly as
they are passed to limit_flux. -/
noncomputable def kernel_fluxfac (gamma rhoL PL mL : ℝ) (pL : Vec3) (EL : ℝ)
    (rhoR PR mR : ℝ) (pR : Vec3) (ER : ℝ)
    (mflux : ℝ) (pflux : Vec3) (Eflux : ℝ) : ℝ :=
  let mLfluxlimit := flux_limiter * mL
  let mL2 := mLfluxlimit * mLfluxlimit
  let pL2 := pL.norm2
  let ELfluxlimit := flux_limiter * EL
  let mRfluxlimit := flux_limiter * mR
  let mR2 := mRfluxlimit * mRfluxlimit
  let pR2 := pR.norm2
  let ERfluxlimit := flux_limiter * ER
  limit_flux mflux pflux.norm2 Eflux mLfluxlimit ((flux_limiter * flux_limiter) * pL2)
    ELfluxlimit mRfluxlimit ((flux_limiter * flux_limiter) * pR2) ERfluxlimit
    (if pL2 * rhoL > gamma * mL2 * PL then true else false)
    (if pR2 * rhoR > gamma * mR2 * PR then true else false)
    (if gamma = 1 then true else false)

theorem last_stage_le {b : Bool} {c : Prop} [Decidable c] (a s : ℝ) :
    (if b then if c then min a s else a else a) ≤ a := by
  split_ifs
  · exact min_le_left _ _
  · exact le_refl a
  · exact le_refl a

theorem limit_flux_le_L (mflux pflux2 Eflux mL pL2 EL mR pR2 ER : ℝ) (hR iso : Bool)
    (h : pflux2 > pL2) :
    limit_flux mflux pflux2 Eflux mL pL2 EL mR pR2 ER true hR iso ≤
      Real.sqrt (pL2 / pflux2) := by
  simp only [limit_flux, if_true, eq_self_iff_true]
  refine le_trans (last_stage_le _ _) ?_
  rw [if_pos h]
  exact min_le_right _ _

theorem limit_flux_le_R (mflux pflux2 Eflux mL pL2 EL mR pR2 ER : ℝ) (hL iso : Bool)
    (h : pflux2 > pR2) :
    limit_flux mflux pflux2 Eflux mL pL2 EL mR pR2 ER hL true iso ≤
      Real.sqrt (pR2 / pflux2) := by
  simp only [limit_flux, if_true, eq_self_iff_true]
  rw [if_pos h]
  exact min_le_right _ _

/-- C3: in the flux kernel the momentum-flux limiting factor is applied
for a side only when that side satisfies the kinetic-is-large indicator
stated with the conserved mass (given nonnegative gamma and pressures),
and when it applies and the squared momentum flux exceeds the squared
limit (FLUX_LIMITER times the conserved momentum norm, squared), the
returned factor is at most the square root of that squared limit divided
by the squared momentum flux. -/
theorem claim_C3 (gamma rhoL PL mL : ℝ) (pL : Vec3) (EL : ℝ)
    (rhoR PR mR : ℝ) (pR : Vec3) (ER : ℝ)
    (mflux : ℝ) (pflux : Vec3) (Eflux : ℝ)
    (hgamma : 0 ≤ gamma) (hPL : 0 ≤ PL) (hPR : 0 ≤ PR) :
    (pL.norm2 * rhoL > gamma * ((flux_limiter * mL) * (flux_limiter * mL)) * PL →
      pL.norm2 * rhoL > gamma * mL ^ 2 * PL) ∧
    (pR.norm2 * rhoR > gamma * ((flux_limiter * mR) * (flux_limiter * mR)) * PR →
      pR.norm2 * rhoR > gamma * mR ^ 2 * PR) ∧
    (pL.norm2 * rhoL > gamma * ((flux_limiter * mL) * (flux_limiter * mL)) * PL →
      pflux.norm2 > (flux_limiter * pL.norm) ^ 2 →
      kernel_fluxfac gamma rhoL PL mL pL EL rhoR PR mR pR ER mflux pflux Eflux ≤
        Real.sqrt ((flux_limiter * pL.norm) ^ 2 / pflux.norm2)) ∧
    (pR.norm2 * rhoR > gamma * ((flux_limiter * mR) * (flux_limiter * mR)) * PR →
      pflux.norm2 > (flux_limiter * pR.norm) ^ 2 →
      kernel_fluxfac gamma rhoL PL mL pL EL rhoR PR mR pR ER mflux pflux Eflux ≤
        Real.sqrt ((flux_limiter * pR.norm) ^ 2 / pflux.norm2)) := by
  have hfl : flux_limiter = 2 := rfl
  have eL : (flux_limiter * pL.norm) ^ 2 = flux_limiter * flux_limiter * pL.norm2 := by
    rw [mul_pow, Vec3.norm, Real.sq_sqrt (Vec3.norm2_nonneg pL)]
    ring
  have eR : (flux_limiter * pR.norm) ^ 2 = flux_limiter * flux_limiter * pR.norm2 := by
    rw [mul_pow, Vec3.norm, Real.sq_sqrt (Vec3.norm2_nonneg pR)]
    ring
  refine ⟨?_, ?_, ?_, ?_⟩
  · intro h
    have hnn : 0 ≤ gamma * mL ^ 2 * PL := mul_nonneg (mul_nonneg hgamma (sq_nonneg mL)) hPL
    rw [hfl] at h
    nlinarith [hnn, h]
  · intro h
    have hnn : 0 ≤ gamma * mR ^ 2 * PR := mul_nonneg (mul_nonneg hgamma (sq_nonneg mR)) hPR
    rw [hfl] at h
    nlinarith [hnn, h]
  · intro hcond hflux
    rw [eL] at hflux ⊢
    have hk : kernel_fluxfac gamma rhoL PL mL pL EL rhoR PR mR pR ER mflux pflux Eflux =
        limit_flux mflux pflux.norm2 Eflux (flux_limiter * mL)
          (flux_limiter * flux_limiter * pL.norm2) (flux_limiter * EL) (flux_limiter * mR)
          (flux_limiter * flux_limiter * pR.norm2) (flux_limiter * ER) true
          (if pR.norm2 * rhoR > gamma * ((flux_limiter * mR) * (flux_limiter * mR)) * PR
            then true else false)
          (if gamma = 1 then true else false) := by
      simp only [kernel_fluxfac]
      rw [if_pos hcond]
    rw [hk]
    exact limit_flux_le_L _ _ _ _ _ _ _ _ _ _ _ hflux
  · intro hcond hflux
    rw [eR] at hflux ⊢
    have hk : kernel_fluxfac gamma rhoL PL mL pL EL rhoR PR mR pR ER mflux pflux Eflux =
        limit_flux mflux pflux.norm2 Eflux (flux_limiter * mL)
          (flux_limiter * flux_limiter * pL.norm2) (flux_limiter * EL) (flux_limiter * mR)
          (flux_limiter * flux_limiter * pR.norm2) (flux_limiter * ER)
          (if pL.norm2 * rhoL > gamma * ((flux_limiter * mL) * (flux_limiter * mL)) * PL
            then true else false)
          true
          (if gamma = 1 then true else false) := by
      simp only [kernel_fluxfac]
      rw [if_pos hcond]
    rw [hk]
    exact limit_flux_le_R _ _ _ _ _ _ _ _ _ _ _ hflux

theorem claim_C3_witness :
    (0 ≤ (1 : ℝ)) ∧ (0 ≤ (0 : ℝ)) ∧
      kernel_fluxfac 1 1 0 0 (Vec3.mk 1 0 0) 0 1 0 0 (Vec3.mk 0 1 0) 0 0 (Vec3.mk 1 2 0) 0 ≤
        Real.sqrt ((flux_limiter * (Vec3.mk 1 0 0).norm) ^ 2 / (Vec3.mk 1 2 0).norm2) := by
  refine ⟨by norm_num, by norm_num, ?_⟩
  refine (claim_C3 1 1 0 0 (Vec3.mk 1 0 0) 0 1 0 0 (Vec3.mk 0 1 0) 0 0 (Vec3.mk 1 2 0) 0
    (by norm_num) (by norm_num) (by norm_num)).2.2.1 ?_ ?_
  · norm_num [Vec3.norm2, flux_limiter]
  · norm_num [Vec3.norm2, Vec3.norm, flux_limiter, Real.sqrt_one]

namespace Vec3

/-- Component access by axis index (CoordinateVector operator[]). -/
def get (v : Vec3) : Fin 3 → ℝ
  | 0 => v.x
  | 1 => v.y
  | 2 => v.z

/-- Component replacement by axis index. -/
def set (v : Vec3) : Fin 3 → ℝ → Vec3
  | 0, r => ⟨r, v.y, v.z⟩
  | 1, r => ⟨v.x, r, v.z⟩
  | 2, r => ⟨v.x, v.y, r⟩

@[simp] theorem get_zero (v : Vec3) : v.get 0 = v.x := rfl

@[simp] theorem get_one (v : Vec3) : v.get 1 = v.y := rfl

@[simp] theorem get_two (v : Vec3) : v.get 2 = v.z := rfl

@[simp] theorem set_zero (v : Vec3) (r : ℝ) : v.set 0 r = ⟨r, v.y, v.z⟩ := rfl

@[simp] theorem set_one (v : Vec3) (r : ℝ) : v.set 1 r = ⟨v.x, r, v.z⟩ := rfl

@[simp] theorem set_two (v : Vec3) (r : ℝ) : v.set 2 r = ⟨v.x, v.y, r⟩ := rfl

end Vec3

/-- Boundary condition types (HydroBoundaryConditionType). -/
inductive HydroBoundary where
  | periodic
  | reflective
  | inflow
  | outflow
  | bondi
deriving DecidableEq

/-- Six per-face boundary policies: the boundaries array of
HydroIntegrator, entries ordered x low, x high, y low, y high, z low,
z high. -/
structure Boundaries where
  xlow : HydroBoundary
  xhigh : HydroBoundary
  ylow : HydroBoundary
  yhigh : HydroBoundary
  zlow : HydroBoundary
  zhigh : HydroBoundary
deriving DecidableEq

namespace Boundaries

/-- Policy at the low face of axis i, entry 2 i of the boundaries array. -/
def lo (b : Boundaries) : Fin 3 → HydroBoundary
  | 0 => b.xlow
  | 1 => b.ylow
  | 2 => b.zlow

/-- Policy at the high face of axis i, entry 2 i + 1 of the array. -/
def hi (b : Boundaries) : Fin 3 → HydroBoundary
  | 0 => b.xhigh
  | 1 => b.yhigh
  | 2 => b.zhigh

end Boundaries

/-- Values returned by BondiProfile get_hydrodynamic_variables. -/
structure BondiVars where
  rho : ℝ
  u : Vec3
  press : ℝ
  nfrac : ℝ

/-- Right-state variables assembled by the flux kernel at a domain
boundary face (primitives, gradients, flux-limit quantities), the block
of locals of HydroFluxComputation operator() lines 606 to 652. -/
structure BoundaryState where
  rho : ℝ
  u : Vec3
  press : ℝ
  grad_rho : Vec3
  gux : Vec3
  guy : Vec3
  guz : Vec3
  grad_press : Vec3
  mfluxlimit : ℝ
  m2 : ℝ
  p2 : ℝ
  Efluxlimit : ℝ

namespace BoundaryState

/-- Row i of the right-state velocity gradient matrix. -/
def gradU (s : BoundaryState) : Fin 3 → Vec3
  | 0 => s.gux
  | 1 => s.guy
  | 2 => s.guz

/-- Replace row i of the right-state velocity gradient matrix. -/
def setGradU (s : BoundaryState) : Fin 3 → Vec3 → BoundaryState
  | 0, g => { s with gux := g }
  | 1, g => { s with guy := g }
  | 2, g => { s with guz := g }

@[simp] theorem gradU_zero (s : BoundaryState) : s.gradU 0 = s.gux := rfl

@[simp] theorem gradU_one (s : BoundaryState) : s.gradU 1 = s.guy := rfl

@[simp] theorem gradU_two (s : BoundaryState) : s.gradU 2 = s.guz := rfl

@[simp] theorem setGradU_zero (s : BoundaryState) (g : Vec3) :
    s.setGradU 0 g = { s with gux := g } := rfl

@[simp] theorem setGradU_one (s : BoundaryState) (g : Vec3) :
    s.setGradU 1 g = { s with guy := g } := rfl

@[simp] theorem setGradU_two (s : BoundaryState) (g : Vec3) :
    s.setGradU 2 g = { s with guz := g } := rfl

end BoundaryState

/-- One iteration of the per-axis boundary dispatch loop of
HydroFluxComputation operator() (HydroIntegrator.hpp lines 653 to 695):
reflective mirrors the axis component of the velocity and of the
gradients (except the row along the axis), bondi queries the profile at
the outside position and zeroes all gradients, outflow mirrors only an
inflowing velocity component and zeroes its gradient row, and any other
policy leaves the copied left state untouched. -/
noncomputable def boundary_axis (b : Boundaries) (bondi_vars : Vec3 → BondiVars)
    (normal posR : Vec3) (i : Fin 3) (s : BoundaryState) : BoundaryState :=
  if (normal.get i < 0 ∧ b.lo i = HydroBoundary.reflective) ∨
      (normal.get i > 0 ∧ b.hi i = HydroBoundary.reflective) then
    let s1 := { s with
      u := s.u.set i (-(s.u.get i))
      grad_rho := s.grad_rho.set i (-(s.grad_rho.get i))
      grad_press := s.grad_press.set i (-(s.grad_press.get i)) }
    let s2 := s1.setGradU (i + 1) ((s1.gradU (i + 1)).set i (-((s1.gradU (i + 1)).get i)))
    s2.setGradU (i + 2) ((s2.gradU (i + 2)).set i (-((s2.gradU (i + 2)).get i)))
  else if (normal.get i < 0 ∧ b.lo i = HydroBoundary.bondi) ∨
      (normal.get i > 0 ∧ b.hi i = HydroBoundary.bondi) then
    let bv := bondi_vars posR
    { s with
      rho := bv.rho
      u := bv.u
      press := bv.press
      grad_rho := Vec3.zero
      gux := Vec3.zero
      guy := Vec3.zero
      guz := Vec3.zero
      grad_press := Vec3.zero }
  else if (normal.get i < 0 ∧ b.lo i = HydroBoundary.outflow) ∨
      (normal.get i > 0 ∧ b.hi i = HydroBoundary.outflow) then
    if s.u.get i * normal.get i < 0 then
      { s.setGradU i Vec3.zero with u := s.u.set i (-(s.u.get i)) }
    else s
  else s

/-- Right state at a domain boundary face: the kernel copies the left
state into the right-state locals (operator() lines 640 to 652) and then
runs the per-axis dispatch loop for the three axes in order; the argument
s is that copy of the left state. -/
noncomputable def boundary_right_state (b : Boundaries) (bondi_vars : Vec3 → BondiVars)
    (normal posR : Vec3) (s : BoundaryState) : BoundaryState :=
  boundary_axis b bondi_vars normal posR 2
    (boundary_axis b bondi_vars normal posR 1
      (boundary_axis b bondi_vars normal posR 0 s))

/-- Boundary configuration with all six policies inflow. -/
def inflow_boundaries : Boundaries :=
  ⟨HydroBoundary.inflow, HydroBoundary.inflow, HydroBoundary.inflow,
    HydroBoundary.inflow, HydroBoundary.inflow, HydroBoundary.inflow⟩

/-- Boundary configuration with all six policies reflective. -/
def reflective_boundaries : Boundaries :=
  ⟨HydroBoundary.reflective, HydroBoundary.reflective, HydroBoundary.reflective,
    HydroBoundary.reflective, HydroBoundary.reflective, HydroBoundary.reflective⟩

/-- Left state used in the boundary counterexample: unit density and
pressure, unit velocity along x, vanishing gradients and limits. -/
noncomputable def cex_left_state : BoundaryState :=
  ⟨1, ⟨1, 0, 0⟩, 1, Vec3.zero, Vec3.zero, Vec3.zero, Vec3.zero, Vec3.zero, 0, 0, 0, 0⟩

/-- Trivial Bondi profile used where no bondi face exists. -/
noncomputable def trivial_bondi : Vec3 → BondiVars := fun _ => ⟨0, Vec3.zero, 0, 0⟩

theorem fin3_zero_add_one : (0 : Fin 3) + 1 = 1 := by decide

theorem fin3_zero_add_two : (0 : Fin 3) + 2 = 2 := by decide

theorem fin3_one_add_one : (1 : Fin 3) + 1 = 2 := by decide

theorem fin3_one_add_two : (1 : Fin 3) + 2 = 0 := by decide

theorem fin3_two_add_one : (2 : Fin 3) + 1 = 0 := by decide

theorem fin3_two_add_two : (2 : Fin 3) + 2 = 1 := by decide

theorem inflow_ne_reflective : HydroBoundary.inflow ≠ HydroBoundary.reflective := by decide

theorem inflow_ne_bondi : HydroBoundary.inflow ≠ HydroBoundary.bondi := by decide

theorem inflow_ne_outflow : HydroBoundary.inflow ≠ HydroBoundary.outflow := by decide

/-- C4 counterexample: at the low x face (outward normal along minus x)
with a left state of unit x velocity, the inflow policy keeps the
velocity component while the reflective policy negates it, so the right
states produced by the two policies differ, refuting the claim that
inflow behaves like reflective. -/
theorem claim_C4_cex :
    boundary_right_state inflow_boundaries trivial_bondi (Vec3.mk (-1) 0 0) Vec3.zero
        cex_left_state ≠
      boundary_right_state reflective_boundaries trivial_bondi (Vec3.mk (-1) 0 0) Vec3.zero
        cex_left_state := by
  intro h
  have h1 := congrArg (fun t : BoundaryState => t.u.x) h
  norm_num [boundary_right_state, boundary_axis, inflow_boundaries, reflective_boundaries,
    cex_left_state, Boundaries.lo, Boundaries.hi, Vec3.zero, fin3_zero_add_one,
    fin3_zero_add_two, inflow_ne_reflective, inflow_ne_bondi, inflow_ne_outflow] at h1

/-- C4 amended: the inflow policy has no branch in the dispatch loop, so
whenever every boundary side a face actually touches carries the inflow
policy the oracle returns the copied left state completely unchanged (an
identity copy, not the mirrored state reflective would produce). -/
theorem claim_C4 (b : Boundaries) (bondi_vars : Vec3 → BondiVars)
    (normal posR : Vec3) (s : BoundaryState)
    (h : ∀ i : Fin 3, (normal.get i < 0 → b.lo i = HydroBoundary.inflow) ∧
      (0 < normal.get i → b.hi i = HydroBoundary.inflow)) :
    boundary_right_state b bondi_vars normal posR s = s := by
  have step : ∀ i : Fin 3, ∀ t : BoundaryState,
      boundary_axis b bondi_vars normal posR i t = t := by
    intro i t
    have c1 : ¬ ((normal.get i < 0 ∧ b.lo i = HydroBoundary.reflective) ∨
        (normal.get i > 0 ∧ b.hi i = HydroBoundary.reflective)) := by
      rintro (⟨hn, hb⟩ | ⟨hn, hb⟩)
      · rw [(h i).1 hn] at hb
        exact HydroBoundary.noConfusion hb
      · rw [(h i).2 hn] at hb
        exact HydroBoundary.noConfusion hb
    have c2 : ¬ ((normal.get i < 0 ∧ b.lo i = HydroBoundary.bondi) ∨
        (normal.get i > 0 ∧ b.hi i = HydroBoundary.bondi)) := by
      rintro (⟨hn, hb⟩ | ⟨hn, hb⟩)
      · rw [(h i).1 hn] at hb
        exact HydroBoundary.noConfusion hb
      · rw [(h i).2 hn] at hb
        exact HydroBoundary.noConfusion hb
    have c3 : ¬ ((normal.get i < 0 ∧ b.lo i = HydroBoundary.outflow) ∨
        (normal.get i > 0 ∧ b.hi i = HydroBoundary.outflow)) := by
      rintro (⟨hn, hb⟩ | ⟨hn, hb⟩)
      · rw [(h i).1 hn] at hb
        exact HydroBoundary.noConfusion hb
      · rw [(h i).2 hn] at hb
        exact HydroBoundary.noConfusion hb
    unfold boundary_axis
    rw [if_neg c1, if_neg c2, if_neg c3]
  unfold boundary_right_state
  rw [step 0, step 1, step 2]

theorem claim_C4_witness :
    boundary_right_state inflow_boundaries trivial_bondi (Vec3.mk (-1) 0 0) Vec3.zero
      cex_left_state = cex_left_state := by
  refine claim_C4 inflow_boundaries trivial_bondi (Vec3.mk (-1) 0 0) Vec3.zero
    cex_left_state ?_
  intro i
  constructor
  · intro hn
    fin_cases i <;> rfl
  · intro hp
    exfalso
    revert hp
    fin_cases i <;> norm_num [Vec3.get]

/-- Box periodicity flags (the CoordinateVector of bool handed to the
constructor). -/
structure Periodicity where
  x : Bool
  y : Bool
  z : Bool
deriving DecidableEq

/-- Periodicity flag of axis i. -/
def Periodicity.get (p : Periodicity) : Fin 3 → Bool
  | 0 => p.x
  | 1 => p.y
  | 2 => p.z

/-- Constructor boundary checks of HydroIntegrator (HydroIntegrator.hpp
lines 835 to 869): true exactly when one of the cmac_error calls is
reached and construction aborts. -/
def hydro_constructor_fails (b : Boundaries) (per : Periodicity) (bondi_given : Bool) : Bool :=
  if b.xlow = HydroBoundary.periodic ∧
      (b.xhigh ≠ HydroBoundary.periodic ∨ per.x = false) then true
  else if b.ylow = HydroBoundary.periodic ∧
      (b.yhigh ≠ HydroBoundary.periodic ∨ per.y = false) then true
  else if b.zlow = HydroBoundary.periodic ∧
      (b.zhigh ≠ HydroBoundary.periodic ∨ per.z = false) then true
  else if b.xlow = HydroBoundary.bondi ∧ bondi_given = false then true
  else false

/-- Boundary configuration whose x high face is bondi, all others
reflective. -/
def bondi_xhigh_boundaries : Boundaries :=
  ⟨HydroBoundary.reflective, HydroBoundary.bondi, HydroBoundary.reflective,
    HydroBoundary.reflective, HydroBoundary.reflective, HydroBoundary.reflective⟩

/-- C6 counterexample: a configuration whose x high face is bondi with no
Bondi profile provided is invalid per the claim, yet the constructor
checks pass silently: the bondi check only covers the x low face. -/
theorem claim_C6_cex :
    bondi_xhigh_boundaries.hi 0 = HydroBoundary.bondi ∧
      hydro_constructor_fails bondi_xhigh_boundaries ⟨false, false, false⟩ false = false := by
  decide

/-- C6 amended: the constructor signals a fatal configuration error
exactly when some axis has a periodic low side whose high side is not
periodic or whose axis is not periodic in the grid box, or when the x low
face (and only that face) is bondi while no Bondi profile is provided;
a high-side-only periodic face and a bondi policy on any of the five
other faces are accepted silently. -/
theorem claim_C6 (b : Boundaries) (per : Periodicity) (bondi_given : Bool) :
    hydro_constructor_fails b per bondi_given = true ↔
      (∃ i : Fin 3, b.lo i = HydroBoundary.periodic ∧
        (b.hi i ≠ HydroBoundary.periodic ∨ per.get i = false)) ∨
      (b.lo 0 = HydroBoundary.bondi ∧ bondi_given = false) := by
  constructor
  · intro h
    unfold hydro_constructor_fails at h
    split_ifs at h with h1 h2 h3 h4
    · exact Or.inl ⟨0, h1⟩
    · exact Or.inl ⟨1, h2⟩
    · exact Or.inl ⟨2, h3⟩
    · exact Or.inr h4
  · intro hcase
    unfold hydro_constructor_fails
    split_ifs <;> first
      | rfl
      | (exfalso
         rcases hcase with ⟨i, hi2⟩ | hb
         · fin_cases i <;>
             simp only [Boundaries.lo, Boundaries.hi, Periodicity.get] at hi2 <;> tauto
         · simp only [Boundaries.lo] at hb
           tauto)

/-- Configuration and conversion-factor state of HydroIntegrator used by
the per-cell passes: gamma, the radiation flags, the temperatures, the
velocity cap and the four physical conversion factors, together with the
multiplicative internal-unit conversion factors for acceleration and
volume (the unit system itself lives in InternalHydroUnits, outside
these sources; a conversion multiplies by the per-quantity factor). -/
structure HydroParams where
  gamma : ℝ
  do_heating : Bool
  do_cooling : Bool
  T_neutral : ℝ
  T_ionised : ℝ
  T_shock : ℝ
  max_velocity : ℝ
  u_fac : ℝ
  T_fac : ℝ
  P_fac : ℝ
  n_fac : ℝ
  unit_acc : ℝ
  unit_vol : ℝ

/-- Gamma minus one, the gm1 member of HydroIntegrator. -/
noncomputable def HydroParams.gm1 (p : HydroParams) : ℝ := p.gamma - 1

/-- Inverse of gamma minus one, the gm1_inv member of HydroIntegrator. -/
noncomputable def HydroParams.gm1_inv (p : HydroParams) : ℝ := 1 / (p.gamma - 1)

/-- Per-cell hydro state: cell volume, primitives, primitive gradients,
conserved variables, the flux accumulator delta_conserved, the two
external energy buffers, the gravitational acceleration and the
ionisation variables (neutral fraction, temperature, number density). -/
structure HydroCell where
  volume : ℝ
  rho : ℝ
  u : Vec3
  press : ℝ
  grad_rho : Vec3
  gux : Vec3
  guy : Vec3
  guz : Vec3
  grad_press : Vec3
  m : ℝ
  mom : Vec3
  E : ℝ
  dm : ℝ
  dmom : Vec3
  dE : ℝ
  energy_rate : ℝ
  energy : ℝ
  accel : Vec3
  xH : ℝ
  temperature : ℝ
  ndens : ℝ

/-- Sound speed of a cell, transcribed from get_soundspeed
(HydroIntegrator.hpp lines 1109 to 1127): adiabatic from the stored
primitives for gamma above one (DBL_MIN in vacuum), isothermal from the
ionisation temperature and mean molecular mass otherwise. -/
noncomputable def soundspeed (p : HydroParams) (c : HydroCell) : ℝ :=
  if p.gamma > 1 then
    if c.rho > 0 then Real.sqrt (p.gamma * c.press / c.rho) else dbl_min
  else
    Real.sqrt (p.P_fac * c.temperature / (0.5 * (1 + c.xH)))

/-- Inputs of the initialisation pass for one cell: volume, ionisation
number density and temperature, and the velocity preset on the hydro
variables. -/
structure InitCell where
  volume : ℝ
  number_density : ℝ
  temperature : ℝ
  u : Vec3

/-- Primitive and conserved variables stored by one cell of the
initialisation pass. -/
structure InitResult where
  rho : ℝ
  u : Vec3
  press : ℝ
  m : ℝ
  mom : Vec3
  E : ℝ

/-- Velocity cap (HydroIntegrator.hpp lines 1494 to 1498 and 995 to
1000): a velocity of norm above the cap is rescaled onto the cap. -/
noncomputable def cap_velocity (vmax : ℝ) (u : Vec3) : Vec3 :=
  if u.norm > vmax then (vmax / u.norm) • u else u

/-- One cell of the first loop of initialize_hydro_variables
(HydroIntegrator.hpp lines 987 to 1033), before the later uniform
rescaling to internal units: density from the number density, the
velocity cap, the temperature-derived pressure (doubled for ionised
gas), and the conserved variables built from the capped velocity. -/
noncomputable def init_cell (p : HydroParams) (hydrogen_mass : ℝ) (c : InitCell) :
    InitResult :=
  let density := c.number_density * hydrogen_mass
  let velocity := cap_velocity p.max_velocity c.u
  let pressure0 := density * p.P_fac * c.temperature
  let pressure := if c.temperature ≥ p.T_ionised then 2 * pressure0 else pressure0
  let mass := density * c.volume
  let momentum := mass • velocity
  let ekin := Vec3.dot velocity momentum
  let energy :=
    if p.gamma > 1 then c.volume * pressure * p.gm1_inv + 0.5 * ekin else ekin
  ⟨density, velocity, pressure, mass, momentum, energy⟩

/-- Hancock half-step prediction for one cell, transcribed from the
serial prediction loop of do_hydro_step (HydroIntegrator.hpp lines 1199
to 1269); the isinf guard of the source is vacuous over the reals. -/
noncomputable def hancock_cell (p : HydroParams) (halfdt : ℝ) (c : HydroCell) : HydroCell :=
  let rho_inv := 1 / c.rho
  if c.rho > 0 then
    let a := p.unit_acc • c.accel
    let divv := c.gux.x + c.guy.y + c.guz.z
    let rho_new := c.rho - halfdt * (c.rho * divv + Vec3.dot c.u c.grad_rho)
    let u_new := c.u - halfdt • (divv • c.u + rho_inv • c.grad_press - a)
    let P_new := c.press - halfdt * (p.gamma * c.press * divv + Vec3.dot c.u c.grad_press)
    { c with rho := rho_new, u := u_new, press := P_new }
  else c

/-- Flux increments a cell accumulates over its faces during the
parallel flux exchange; the Riemann solver and the grid geometry are
external interfaces, so the per-cell totals are taken as an input. -/
structure FaceFlux where
  dm : ℝ
  dmom : Vec3
  dE : ℝ

/-- Accumulation of the face fluxes into delta_conserved
(HydroFluxComputation operator() lines 721 to 726, summed over the
neighbour loop). -/
noncomputable def apply_flux (f : FaceFlux) (c : HydroCell) : HydroCell :=
  { c with dm := c.dm + f.dm, dmom := c.dmom + f.dmom, dE := c.dE + f.dE }

/-- Radiation source term for one cell, transcribed from the radiation
loop of do_hydro_step (HydroIntegrator.hpp lines 1289 to 1339). -/
noncomputable def radiation_cell (p : HydroParams) (c : HydroCell) : HydroCell :=
  if p.do_heating || p.do_cooling then
    let Tgas := p.T_ionised * (1 - c.xH) + p.T_neutral * c.xH
    let c1 := { c with temperature := Tgas }
    if p.gamma > 1 ∧ c1.rho > 0 then
      let Tgas_old := 0.5 * (1 + c1.xH) * p.T_fac * c1.press / (c1.rho + dbl_min)
      if c1.energy > 0 ∨ Tgas_old > p.T_shock then
        { c1 with temperature := Tgas_old }
      else
        let ufac := 2 * p.u_fac / (1 + c1.xH)
        let ugas := ufac * Tgas
        let uold := c1.press * p.gm1_inv / (c1.rho + dbl_min)
        let du := ugas - uold
        let dE0 := c1.m * du
        let c2 := if p.do_heating ∧ dE0 > 0 then { c1 with dE := c1.dE - dE0 } else c1
        if p.do_cooling ∧ dE0 < 0 then
          let dE1 := max dE0 (2 * ufac * (p.T_neutral - p.T_ionised) * c2.m)
          { c2 with dE := c2.dE - 0.5 * dE1 }
        else c2
    else c1
  else c

/-- Conservative update for one cell, transcribed from the update loop of
do_hydro_step (HydroIntegrator.hpp lines 1341 to 1417): subtract the
flux accumulator, clamp the mass, add gravity (the energy work term uses
the pre-gravity momentum), fold in and zero the two external energy
buffers, clamp the energy (zeroing the momentum of a gamma above one
cell with zero energy) and zero the flux accumulator. -/
noncomputable def update_conserved_cell (p : HydroParams) (dt : ℝ) (c : HydroCell) :
    HydroCell :=
  let m1 := c.m - c.dm
  let mom1 := c.mom - c.dmom
  let E1 := c.E - c.dE
  let m2 := max m1 0
  let a := p.unit_acc • c.accel
  let mdt := m2 * dt
  let pmom := mom1
  let mom2 := mom1 + mdt • a
  let E2 := E1 + dt * Vec3.dot pmom a
  let E3 := E2 + dt * c.energy_rate + c.energy
  let E4 := max E3 0
  let mom3 := if p.gamma > 1 ∧ E4 = 0 then Vec3.zero else mom2
  { c with
    m := m2
    mom := mom3
    E := E4
    dm := 0
    dmom := Vec3.zero
    dE := 0
    energy_rate := 0
    energy := 0 }

/-- Primitive variables and temperature recovered from the conserved
variables of one cell. -/
structure Prim where
  rho : ℝ
  u : Vec3
  press : ℝ
  T : ℝ

/-- Recovery of the primitives from the conserved variables, the inner
branch of the recovery loop of do_hydro_step (HydroIntegrator.hpp lines
1440 to 1466): vacuum for nonpositive mass, otherwise density and
velocity from mass and momentum, and pressure and temperature from the
equation of state. -/
noncomputable def recover_prim (p : HydroParams) (V : ℝ) (c : HydroCell) : Prim :=
  if c.m ≤ 0 then ⟨0, Vec3.zero, 0, 0⟩
  else
    let density := c.m / V
    let velocity := (1 / c.m) • c.mom
    if p.gamma > 1 then
      let pressure := p.gm1 * (c.E - 0.5 * Vec3.dot velocity c.mom) / V
      ⟨density, velocity, pressure, 0.5 * (1 + c.xH) * p.T_fac * pressure / density⟩
    else
      ⟨density, velocity, p.P_fac * density * c.temperature / (0.5 * (1 + c.xH)),
        c.temperature⟩

/-- Vacuum forcing of the SAFE_HYDRO block of the recovery loop
(HydroIntegrator.hpp lines 1468 to 1474): nonpositive density or
pressure resets all primitives and the temperature. -/
noncomputable def recovery_safe (pr0 : Prim) : Prim :=
  if pr0.rho ≤ 0 ∨ pr0.press ≤ 0 then ⟨0, Vec3.zero, 0, 0⟩ else pr0

/-- Primitive recovery for one cell, transcribed from the recovery loop
of do_hydro_step (HydroIntegrator.hpp lines 1421 to 1511): recover the
primitives, force vacuum under SAFE_HYDRO when density or pressure is
nonpositive, store them, cap the velocity norm at max_velocity, scale
the pressure down when the sound speed exceeds max_velocity, and write
back the number density and (for gamma above one) the temperature. -/
noncomputable def primitive_recovery_cell (p : HydroParams) (c : HydroCell) : HydroCell :=
  let V := p.unit_vol * c.volume
  let pr := recovery_safe (recover_prim p V c)
  let c1 := { c with rho := pr.rho, u := pr.u, press := pr.press }
  let c2 := { c1 with u := cap_velocity p.max_velocity c1.u }
  let cs := soundspeed p c2
  let c3 :=
    if cs > p.max_velocity then
      { c2 with press := c2.press * ((p.max_velocity / cs) * (p.max_velocity / cs)) }
    else c2
  let c4 := { c3 with ndens := c3.rho * p.n_fac }
  if p.gamma > 1 then { c4 with temperature := pr.T } else c4

/-- One cell of a full hydro step: Hancock prediction, accumulation of
the face fluxes, radiation source term, conservative update and
primitive recovery, in the order of do_hydro_step; dt is the timestep
already converted to internal units, and the half timestep of the
prediction step is half of it. -/
noncomputable def do_hydro_step_cell (p : HydroParams) (dt : ℝ) (f : FaceFlux)
    (c : HydroCell) : HydroCell :=
  primitive_recovery_cell p
    (update_conserved_cell p dt
      (radiation_cell p
        (apply_flux f
          (hancock_cell p (0.5 * dt) c))))

/-- A full hydro step over a list of cells with the per-cell face-flux
totals of the parallel flux exchange. -/
noncomputable def do_hydro_step (p : HydroParams) (dt : ℝ)
    (fluxes : List FaceFlux) (cells : List HydroCell) : List HydroCell :=
  List.zipWith (do_hydro_step_cell p dt) fluxes cells

theorem mem_zipWith {α β γ : Type} {f : α → β → γ} {l1 : List α} {l2 : List β} {c : γ}
    (h : c ∈ List.zipWith f l1 l2) : ∃ a b, a ∈ l1 ∧ b ∈ l2 ∧ c = f a b := by
  induction l1 generalizing l2 with
  | nil => simp [List.zipWith] at h
  | cons x xs ih =>
    cases l2 with
    | nil => simp [List.zipWith] at h
    | cons y ys =>
      rw [List.zipWith_cons_cons, List.mem_cons] at h
      rcases h with h | h
      · exact ⟨x, y, List.mem_cons_self x xs, List.mem_cons_self y ys, h⟩
      · obtain ⟨a, b, ha, hb, he⟩ := ih h
        exact ⟨a, b, List.mem_cons_of_mem x ha, List.mem_cons_of_mem y hb, he⟩

theorem recovery_keeps_accumulators (p : HydroParams) (c : HydroCell) :
    (primitive_recovery_cell p c).dm = c.dm ∧
      (primitive_recovery_cell p c).dmom = c.dmom ∧
      (primitive_recovery_cell p c).dE = c.dE ∧
      (primitive_recovery_cell p c).energy_rate = c.energy_rate ∧
      (primitive_recovery_cell p c).energy = c.energy := by
  simp only [primitive_recovery_cell]
  split_ifs <;> exact ⟨rfl, rfl, rfl, rfl, rfl⟩

theorem recovery_keeps_conserved (p : HydroParams) (c : HydroCell) :
    (primitive_recovery_cell p c).m = c.m ∧
      (primitive_recovery_cell p c).mom = c.mom ∧
      (primitive_recovery_cell p c).E = c.E := by
  simp only [primitive_recovery_cell]
  split_ifs <;> exact ⟨rfl, rfl, rfl⟩

theorem update_zero_buffers (p : HydroParams) (dt : ℝ) (c : HydroCell) :
    (update_conserved_cell p dt c).dm = 0 ∧
      (update_conserved_cell p dt c).dmom = Vec3.zero ∧
      (update_conserved_cell p dt c).dE = 0 ∧
      (update_conserved_cell p dt c).energy_rate = 0 ∧
      (update_conserved_cell p dt c).energy = 0 := by
  simp [update_conserved_cell]

theorem update_conserved_nonneg (p : HydroParams) (dt : ℝ) (c : HydroCell) :
    0 ≤ (update_conserved_cell p dt c).m ∧ 0 ≤ (update_conserved_cell p dt c).E := by
  simp only [update_conserved_cell]
  exact ⟨le_max_right _ _, le_max_right _ _⟩

/-- C9: when a hydro step returns, every cell has both external energy
source buffers zero and all five components of the flux accumulator
zero, regardless of the values those fields held before the step or
accumulated during it. -/
theorem claim_C9 (p : HydroParams) (dt : ℝ) (fluxes : List FaceFlux)
    (cells : List HydroCell) :
    ∀ c ∈ do_hydro_step p dt fluxes cells,
      c.energy_rate = 0 ∧ c.energy = 0 ∧
        c.dm = 0 ∧ c.dmom = Vec3.zero ∧ c.dE = 0 := by
  intro c hc
  obtain ⟨f, c0, hf, hc0, rfl⟩ := mem_zipWith hc
  unfold do_hydro_step_cell
  have hrec := recovery_keeps_accumulators p
    (update_conserved_cell p dt (radiation_cell p (apply_flux f (hancock_cell p (0.5 * dt) c0))))
  have hupd := update_zero_buffers p dt
    (radiation_cell p (apply_flux f (hancock_cell p (0.5 * dt) c0)))
  exact ⟨hrec.2.2.2.1.trans hupd.2.2.2.1, hrec.2.2.2.2.trans hupd.2.2.2.2,
    hrec.1.trans hupd.1, hrec.2.1.trans hupd.2.1, hrec.2.2.1.trans hupd.2.2.1⟩

theorem recovery_safe_cases (pr0 : Prim) :
    recovery_safe pr0 = ⟨0, Vec3.zero, 0, 0⟩ ∨
      (0 < (recovery_safe pr0).rho ∧ 0 < (recovery_safe pr0).press) := by
  unfold recovery_safe
  split_ifs with h
  · exact Or.inl rfl
  · push_neg at h
    exact Or.inr ⟨h.1, h.2⟩

theorem cap_velocity_norm_le (vmax : ℝ) (u : Vec3) (h : 0 ≤ vmax) :
    (cap_velocity vmax u).norm ≤ vmax := by
  unfold cap_velocity
  split_ifs with hc
  · have hu : 0 < u.norm := lt_of_le_of_lt h hc
    rw [Vec3.norm_smul, abs_of_nonneg (div_nonneg h (le_of_lt hu)),
      div_mul_cancel₀ _ (ne_of_gt hu)]
  · exact le_of_not_lt hc

theorem cap_velocity_zero (vmax : ℝ) : cap_velocity vmax Vec3.zero = Vec3.zero := by
  unfold cap_velocity
  split_ifs <;> simp [Vec3.zero]

theorem recovery_invariants (p : HydroParams) (c : HydroCell)
    (hvm : dbl_min ≤ p.max_velocity) (hV : 0 < p.unit_vol * c.volume) :
    0 ≤ (primitive_recovery_cell p c).rho ∧ 0 ≤ (primitive_recovery_cell p c).press ∧
      (primitive_recovery_cell p c).u.norm ≤ p.max_velocity ∧
      (1 < p.gamma → soundspeed p (primitive_recovery_cell p c) ≤ p.max_velocity) := by
  have hv0 : 0 ≤ p.max_velocity := le_trans (le_of_lt dbl_min_pos) hvm
  rcases recovery_safe_cases (recover_prim p (p.unit_vol * c.volume) c) with hvac | hpos
  · simp only [primitive_recovery_cell, hvac, cap_velocity_zero]
    refine ⟨?_, ?_, ?_, ?_⟩
    · split_ifs <;> norm_num
    · split_ifs <;> norm_num
    · split_ifs <;> simp [hv0]
    · intro hg
      split_ifs <;> simp only [soundspeed] <;>
        rw [if_pos hg] <;> norm_num <;> exact hvm
  · obtain ⟨hrho, hpress⟩ := hpos
    simp only [primitive_recovery_cell]
    set pr := recovery_safe (recover_prim p (p.unit_vol * c.volume) c) with hprdef
    set u2 := cap_velocity p.max_velocity pr.u with hu2def
    set cs := soundspeed p { c with rho := pr.rho, u := u2, press := pr.press } with hcsdef
    have hcseq : p.gamma > 1 → cs = Real.sqrt (p.gamma * pr.press / pr.rho) := by
      intro hg
      rw [hcsdef]
      simp only [soundspeed]
      rw [if_pos hg]
      show (if pr.rho > 0 then Real.sqrt (p.gamma * pr.press / pr.rho) else dbl_min) =
        Real.sqrt (p.gamma * pr.press / pr.rho)
      rw [if_pos hrho]
    split_ifs with h1 h2 h3
    · refine ⟨le_of_lt hrho, mul_nonneg (le_of_lt hpress) (mul_self_nonneg _), ?_, ?_⟩
      · exact cap_velocity_norm_le p.max_velocity pr.u hv0
      · intro hg
        have hcs0 : 0 < cs := lt_of_le_of_lt hv0 h2
        simp only [soundspeed]
        rw [if_pos h1]
        show (if pr.rho > 0 then
            Real.sqrt (p.gamma *
              (pr.press * (p.max_velocity / cs * (p.max_velocity / cs))) / pr.rho)
          else dbl_min) ≤ p.max_velocity
        rw [if_pos hrho]
        have hnn : 0 ≤ p.gamma * pr.press / pr.rho :=
          div_nonneg (mul_nonneg (by linarith) (le_of_lt hpress)) (le_of_lt hrho)
        have e : p.gamma * (pr.press * (p.max_velocity / cs * (p.max_velocity / cs))) / pr.rho =
            p.gamma * pr.press / pr.rho * (p.max_velocity / cs * (p.max_velocity / cs)) := by
          ring
        rw [e, Real.sqrt_mul hnn, Real.sqrt_mul_self (div_nonneg hv0 (le_of_lt hcs0)),
          ← hcseq h1, mul_comm, div_mul_cancel₀ _ (ne_of_gt hcs0)]
    · refine ⟨le_of_lt hrho, le_of_lt hpress, ?_, ?_⟩
      · exact cap_velocity_norm_le p.max_velocity pr.u hv0
      · intro hg
        simp only [soundspeed]
        rw [if_pos h1]
        show (if pr.rho > 0 then Real.sqrt (p.gamma * pr.press / pr.rho) else dbl_min) ≤
          p.max_velocity
        rw [if_pos hrho, ← hcseq h1]
        exact le_of_not_lt h2
    · refine ⟨le_of_lt hrho, mul_nonneg (le_of_lt hpress) (mul_self_nonneg _), ?_, ?_⟩
      · exact cap_velocity_norm_le p.max_velocity pr.u hv0
      · intro hg
        exact absurd hg h1
    · refine ⟨le_of_lt hrho, le_of_lt hpress, ?_, ?_⟩
      · exact cap_velocity_norm_le p.max_velocity pr.u hv0
      · intro hg
        exact absurd hg h1

theorem hancock_volume (p : HydroParams) (h : ℝ) (c : HydroCell) :
    (hancock_cell p h c).volume = c.volume := by
  simp only [hancock_cell]
  split_ifs <;> rfl

theorem hancock_xH (p : HydroParams) (h : ℝ) (c : HydroCell) :
    (hancock_cell p h c).xH = c.xH := by
  simp only [hancock_cell]
  split_ifs <;> rfl

theorem hancock_temperature (p : HydroParams) (h : ℝ) (c : HydroCell) :
    (hancock_cell p h c).temperature = c.temperature := by
  simp only [hancock_cell]
  split_ifs <;> rfl

theorem apply_flux_volume (f : FaceFlux) (c : HydroCell) :
    (apply_flux f c).volume = c.volume := rfl

theorem apply_flux_xH (f : FaceFlux) (c : HydroCell) :
    (apply_flux f c).xH = c.xH := rfl

theorem apply_flux_temperature (f : FaceFlux) (c : HydroCell) :
    (apply_flux f c).temperature = c.temperature := rfl

theorem radiation_volume (p : HydroParams) (c : HydroCell) :
    (radiation_cell p c).volume = c.volume := by
  simp only [radiation_cell]
  split_ifs <;> rfl

theorem radiation_xH (p : HydroParams) (c : HydroCell) :
    (radiation_cell p c).xH = c.xH := by
  simp only [radiation_cell]
  split_ifs <;> rfl

theorem radiation_temperature_off (p : HydroParams) (c : HydroCell)
    (hh : p.do_heating = false) (hc : p.do_cooling = false) :
    (radiation_cell p c).temperature = c.temperature := by
  unfold radiation_cell
  rw [hh, hc]
  rfl

theorem update_volume (p : HydroParams) (dt : ℝ) (c : HydroCell) :
    (update_conserved_cell p dt c).volume = c.volume := by
  simp [update_conserved_cell]

theorem update_xH (p : HydroParams) (dt : ℝ) (c : HydroCell) :
    (update_conserved_cell p dt c).xH = c.xH := by
  simp [update_conserved_cell]

theorem update_temperature (p : HydroParams) (dt : ℝ) (c : HydroCell) :
    (update_conserved_cell p dt c).temperature = c.temperature := by
  simp [update_conserved_cell]

theorem recovery_xH (p : HydroParams) (c : HydroCell) :
    (primitive_recovery_cell p c).xH = c.xH := by
  simp only [primitive_recovery_cell]
  split_ifs <;> rfl

theorem recovery_temperature_iso (p : HydroParams) (c : HydroCell)
    (hg : ¬ p.gamma > 1) :
    (primitive_recovery_cell p c).temperature = c.temperature := by
  simp only [primitive_recovery_cell]
  rw [if_neg hg]
  split_ifs <;> rfl

/-- C1 amended (SAFE_HYDRO): after a hydro step every cell has
nonnegative conserved mass and total energy, nonnegative density and
pressure, and a velocity norm at most max_velocity, provided
max_velocity is at least DBL_MIN and every converted cell volume is
positive; the sound-speed bound holds whenever gamma exceeds one. For
gamma equal to one the claim fails: the isothermal sound speed depends
only on the ionisation temperature, which the pressure scaling does not
change (see the counterexample). -/
theorem claim_C1 (p : HydroParams) (dt : ℝ) (fluxes : List FaceFlux)
    (cells : List HydroCell)
    (hvm : dbl_min ≤ p.max_velocity)
    (hV : ∀ c ∈ cells, 0 < p.unit_vol * c.volume) :
    ∀ c ∈ do_hydro_step p dt fluxes cells,
      0 ≤ c.m ∧ 0 ≤ c.E ∧ 0 ≤ c.rho ∧ 0 ≤ c.press ∧
        c.u.norm ≤ p.max_velocity ∧
        (1 < p.gamma → soundspeed p c ≤ p.max_velocity) := by
  intro c hc
  obtain ⟨f, c0, hf, hc0, rfl⟩ := mem_zipWith hc
  have hvol : (update_conserved_cell p dt
      (radiation_cell p (apply_flux f (hancock_cell p (0.5 * dt) c0)))).volume =
        c0.volume := by
    rw [update_volume, radiation_volume, apply_flux_volume, hancock_volume]
  have hVc : 0 < p.unit_vol * (update_conserved_cell p dt
      (radiation_cell p (apply_flux f (hancock_cell p (0.5 * dt) c0)))).volume := by
    rw [hvol]
    exact hV c0 hc0
  have hrec := recovery_invariants p
    (update_conserved_cell p dt (radiation_cell p (apply_flux f (hancock_cell p (0.5 * dt) c0))))
    hvm hVc
  have hcons := recovery_keeps_conserved p
    (update_conserved_cell p dt (radiation_cell p (apply_flux f (hancock_cell p (0.5 * dt) c0))))
  have hupd := update_conserved_nonneg p dt
    (radiation_cell p (apply_flux f (hancock_cell p (0.5 * dt) c0)))
  exact ⟨le_of_le_of_eq hupd.1 hcons.1.symm, le_of_le_of_eq hupd.2 hcons.2.2.symm,
    hrec.1, hrec.2.1, hrec.2.2.1, hrec.2.2.2⟩

/-- Parameters of the C1 witness: gamma five thirds regime, radiation
off, unit conversion factors and the velocity cap at DBL_MIN. -/
noncomputable def c1w_params : HydroParams :=
  ⟨2, false, false, 0, 0, 0, dbl_min, 1, 1, 1, 1, 1, 1⟩

/-- Empty unit-volume cell of the C1 witness. -/
noncomputable def c1w_cell : HydroCell :=
  ⟨1, 0, Vec3.zero, 0, Vec3.zero, Vec3.zero, Vec3.zero, Vec3.zero, Vec3.zero,
    0, Vec3.zero, 0, 0, Vec3.zero, 0, 0, 0, Vec3.zero, 0, 0, 0⟩

theorem claim_C1_witness :
    0 ≤ (do_hydro_step_cell c1w_params 1 ⟨0, Vec3.zero, 0⟩ c1w_cell).m ∧
      0 ≤ (do_hydro_step_cell c1w_params 1 ⟨0, Vec3.zero, 0⟩ c1w_cell).E ∧
      0 ≤ (do_hydro_step_cell c1w_params 1 ⟨0, Vec3.zero, 0⟩ c1w_cell).rho ∧
      0 ≤ (do_hydro_step_cell c1w_params 1 ⟨0, Vec3.zero, 0⟩ c1w_cell).press ∧
      (do_hydro_step_cell c1w_params 1 ⟨0, Vec3.zero, 0⟩ c1w_cell).u.norm ≤
        c1w_params.max_velocity ∧
      (1 < c1w_params.gamma →
        soundspeed c1w_params (do_hydro_step_cell c1w_params 1 ⟨0, Vec3.zero, 0⟩ c1w_cell) ≤
          c1w_params.max_velocity) := by
  refine claim_C1 c1w_params 1 [⟨0, Vec3.zero, 0⟩] [c1w_cell] (le_refl _) ?_
    (do_hydro_step_cell c1w_params 1 ⟨0, Vec3.zero, 0⟩ c1w_cell) ?_
  · intro c hcm
    rw [List.mem_singleton] at hcm
    subst hcm
    norm_num [c1w_cell, c1w_params]
  · exact List.mem_singleton.mpr rfl

theorem sqrt_four : Real.sqrt 4 = 2 := by
  rw [show (4 : ℝ) = 2 ^ 2 by norm_num, Real.sqrt_sq (by norm_num)]

/-- Parameters of the C1 counterexample: isothermal gas (gamma one),
radiation off, unit conversion factors and velocity cap one. -/
noncomputable def c1cex_params : HydroParams :=
  ⟨1, false, false, 0, 0, 0, 1, 1, 1, 1, 1, 1, 1⟩

/-- Cell of the C1 counterexample: unit volume, density and mass, zero
velocity, fully neutral hydrogen and ionisation temperature four, so the
isothermal sound speed is two. -/
noncomputable def c1cex_cell : HydroCell :=
  ⟨1, 1, Vec3.zero, 1, Vec3.zero, Vec3.zero, Vec3.zero, Vec3.zero, Vec3.zero,
    1, Vec3.zero, 1, 0, Vec3.zero, 0, 0, 0, Vec3.zero, 1, 4, 0⟩

/-- C1 counterexample: with gamma equal to one the sound speed of a cell
after do_hydro_step can exceed max_velocity (here the sound speed is two
against a cap of one): the sound-speed cap scales the pressure, but the
isothermal sound speed is computed from the unchanged ionisation
temperature, so the claimed invariant fails at gamma one. -/
theorem claim_C1_cex :
    ¬ (∀ c ∈ do_hydro_step c1cex_params 1 [⟨0, Vec3.zero, 0⟩] [c1cex_cell],
        soundspeed c1cex_params c ≤ c1cex_params.max_velocity) := by
  intro hall
  have h := hall (do_hydro_step_cell c1cex_params 1 ⟨0, Vec3.zero, 0⟩ c1cex_cell)
    (List.mem_singleton.mpr rfl)
  have hgam : ¬ c1cex_params.gamma > 1 := by norm_num [c1cex_params]
  have hheat : c1cex_params.do_heating = false := rfl
  have hcool : c1cex_params.do_cooling = false := rfl
  have hx : (do_hydro_step_cell c1cex_params 1 ⟨0, Vec3.zero, 0⟩ c1cex_cell).xH = 1 := by
    unfold do_hydro_step_cell
    rw [recovery_xH, update_xH, radiation_xH, apply_flux_xH, hancock_xH]
    rfl
  have hT : (do_hydro_step_cell c1cex_params 1 ⟨0, Vec3.zero, 0⟩ c1cex_cell).temperature =
      4 := by
    unfold do_hydro_step_cell
    rw [recovery_temperature_iso _ _ hgam, update_temperature,
      radiation_temperature_off _ _ hheat hcool, apply_flux_temperature, hancock_temperature]
    rfl
  rw [soundspeed, if_neg hgam, hT, hx] at h
  norm_num [c1cex_params, sqrt_four] at h

/-- Parameters of the C5 counterexample: isothermal gas (gamma one). -/
noncomputable def c5cex_params : HydroParams :=
  ⟨1, false, false, 100, 100, 100, 10, 1, 1, 1, 1, 1, 1⟩

/-- C5 counterexample: for gamma equal to one the initialisation pass
stores the FULL dot product of momentum and velocity as the conserved
total energy (here one), not half of it as the claim states. -/
theorem claim_C5_cex :
    (init_cell c5cex_params 1 ⟨1, 1, 0, ⟨1, 0, 0⟩⟩).E ≠
      0.5 * Vec3.dot (init_cell c5cex_params 1 ⟨1, 1, 0, ⟨1, 0, 0⟩⟩).mom
        (init_cell c5cex_params 1 ⟨1, 1, 0, ⟨1, 0, 0⟩⟩).u := by
  norm_num [init_cell, c5cex_params, cap_velocity, Vec3.dot, Vec3.norm, Vec3.norm2,
    Real.sqrt_one]

/-- C5 amended: after the initialisation pass the stored conserved total
energy equals V p over gamma minus one plus half the dot product of
momentum and velocity when gamma exceeds one, and equals the FULL dot
product of momentum and velocity (twice what the claim states) when
gamma is at most one, for every cell. -/
theorem claim_C5 (p : HydroParams) (hydrogen_mass : ℝ) (c : InitCell) :
    (init_cell p hydrogen_mass c).E =
      if 1 < p.gamma then
        c.volume * (init_cell p hydrogen_mass c).press / (p.gamma - 1) +
          0.5 * Vec3.dot (init_cell p hydrogen_mass c).mom (init_cell p hydrogen_mass c).u
      else Vec3.dot (init_cell p hydrogen_mass c).mom (init_cell p hydrogen_mass c).u := by
  simp only [init_cell, HydroParams.gm1_inv]
  split_ifs <;> simp only [Vec3.dot, Vec3.smul_def] <;> ring

theorem cap_velocity_norm_eq (vmax : ℝ) (u : Vec3) (h : 0 ≤ vmax) (hc : vmax < u.norm) :
    (cap_velocity vmax u).norm = vmax := by
  unfold cap_velocity
  rw [if_pos hc]
  have hu : 0 < u.norm := lt_of_le_of_lt h hc
  rw [Vec3.norm_smul, abs_of_nonneg (div_nonneg h (le_of_lt hu)),
    div_mul_cancel₀ _ (ne_of_gt hu)]

theorem recovery_u_eq (p : HydroParams) (c : HydroCell) :
    (primitive_recovery_cell p c).u =
      cap_velocity p.max_velocity
        (recovery_safe (recover_prim p (p.unit_vol * c.volume) c)).u := by
  simp only [primitive_recovery_cell]
  split_ifs <;> rfl

theorem recovery_safe_eq_of_pos (pr0 : Prim) (h1 : 0 < (recovery_safe pr0).rho) :
    recovery_safe pr0 = pr0 := by
  unfold recovery_safe
  unfold recovery_safe at h1
  split_ifs at h1 with h
  · simp at h1
  · rw [if_neg h]

theorem recover_prim_u (p : HydroParams) (V : ℝ) (c : HydroCell) (hm : 0 < c.m) :
    (recover_prim p V c).u = (1 / c.m) • c.mom := by
  unfold recover_prim
  rw [if_neg (not_le.mpr hm)]
  split_ifs <;> rfl

theorem smul_ne_self (t : ℝ) (v : Vec3) (hv : v ≠ Vec3.zero) (ht : t ≠ 1) : t • v ≠ v := by
  intro h
  rw [Vec3.smul_def, Vec3.ext_iff] at h
  obtain ⟨ha, hb, hc2⟩ := h
  apply hv
  rw [Vec3.ext_iff]
  have ht1 : t - 1 ≠ 0 := sub_ne_zero.mpr ht
  have ha2 : t * v.x = v.x := ha
  have hb2 : t * v.y = v.y := hb
  have hc3 : t * v.z = v.z := hc2
  refine ⟨?_, ?_, ?_⟩ <;> simp only [Vec3.zero]
  · have hz : (t - 1) * v.x = 0 := by rw [sub_mul, one_mul, ha2, sub_self]
    exact (mul_eq_zero.mp hz).resolve_left ht1
  · have hz : (t - 1) * v.y = 0 := by rw [sub_mul, one_mul, hb2, sub_self]
    exact (mul_eq_zero.mp hz).resolve_left ht1
  · have hz : (t - 1) * v.z = 0 := by rw [sub_mul, one_mul, hc3, sub_self]
    exact (mul_eq_zero.mp hz).resolve_left ht1

theorem norm_pos_ne_zero (v : Vec3) (h : 0 < v.norm) : v ≠ Vec3.zero := by
  intro he
  rw [he, Vec3.norm_zero] at h
  exact lt_irrefl 0 h

/-- C10 amended: in the primitive-recovery pass a cell whose recovered
velocity norm exceeds max_velocity stores exactly the recovered velocity
rescaled by max_velocity over its norm, of norm max_velocity; the
conserved mass, momentum and energy are untouched, the recovered
velocity equals momentum over mass, and the stored capped velocity no
longer equals momentum over mass. In initialize_hydro_variables the same
cap formula and norm hold, but the conserved momentum is computed FROM
the capped velocity, so the stored velocity there still equals momentum
over mass (refuting the claim for that pass). -/
theorem claim_C10
    (p : HydroParams) (c : HydroCell)
    (q : HydroParams) (hydrogen_mass : ℝ) (st : InitCell)
    (hvm : 0 ≤ p.max_velocity)
    (hrho : 0 < (recovery_safe (recover_prim p (p.unit_vol * c.volume) c)).rho)
    (hcap : p.max_velocity <
      (recovery_safe (recover_prim p (p.unit_vol * c.volume) c)).u.norm)
    (hm : 0 < c.m)
    (hvmq : 0 ≤ q.max_velocity)
    (hcapq : q.max_velocity < st.u.norm) :
    ((primitive_recovery_cell p c).u =
        (p.max_velocity /
          (recovery_safe (recover_prim p (p.unit_vol * c.volume) c)).u.norm) •
          (recovery_safe (recover_prim p (p.unit_vol * c.volume) c)).u ∧
      (primitive_recovery_cell p c).u.norm = p.max_velocity ∧
      (primitive_recovery_cell p c).m = c.m ∧
      (primitive_recovery_cell p c).mom = c.mom ∧
      (primitive_recovery_cell p c).E = c.E ∧
      (recovery_safe (recover_prim p (p.unit_vol * c.volume) c)).u = (1 / c.m) • c.mom ∧
      (primitive_recovery_cell p c).u ≠ (1 / c.m) • c.mom) ∧
    ((init_cell q hydrogen_mass st).u = (q.max_velocity / st.u.norm) • st.u ∧
      (init_cell q hydrogen_mass st).u.norm = q.max_velocity ∧
      (init_cell q hydrogen_mass st).mom =
        (init_cell q hydrogen_mass st).m • (init_cell q hydrogen_mass st).u) := by
  have hk := recovery_keeps_conserved p c
  have hueq : (primitive_recovery_cell p c).u =
      (p.max_velocity /
        (recovery_safe (recover_prim p (p.unit_vol * c.volume) c)).u.norm) •
        (recovery_safe (recover_prim p (p.unit_vol * c.volume) c)).u := by
    rw [recovery_u_eq]
    unfold cap_velocity
    rw [if_pos hcap]
  have hprueq : (recovery_safe (recover_prim p (p.unit_vol * c.volume) c)).u =
      (1 / c.m) • c.mom := by
    rw [recovery_safe_eq_of_pos _ hrho, recover_prim_u p _ c hm]
  have hnormpos : 0 < (recovery_safe (recover_prim p (p.unit_vol * c.volume) c)).u.norm :=
    lt_of_le_of_lt hvm hcap
  refine ⟨⟨hueq, ?_, hk.1, hk.2.1, hk.2.2, hprueq, ?_⟩, ?_, ?_, rfl⟩
  · rw [recovery_u_eq]
    exact cap_velocity_norm_eq _ _ hvm hcap
  · rw [hueq, ← hprueq]
    refine smul_ne_self _ _ (norm_pos_ne_zero _ hnormpos) ?_
    intro h1
    rw [div_eq_one_iff_eq (ne_of_gt hnormpos)] at h1
    exact absurd hcap (by rw [h1]; exact lt_irrefl _)
  · show cap_velocity q.max_velocity st.u = (q.max_velocity / st.u.norm) • st.u
    unfold cap_velocity
    rw [if_pos hcapq]
  · show (cap_velocity q.max_velocity st.u).norm = q.max_velocity
    exact cap_velocity_norm_eq _ _ hvmq hcapq

/-- Parameters of the C10 counterexample and witness: velocity cap one,
gamma two, unit conversion factors. -/
noncomputable def c10_params : HydroParams :=
  ⟨2, false, false, 100, 100, 100, 1, 1, 1, 1, 1, 1, 1⟩

/-- Initialisation input of the C10 counterexample: unit volume and
number density, zero temperature, velocity two along x (norm two,
above the cap of one). -/
noncomputable def c10_init : InitCell := ⟨1, 1, 0, ⟨2, 0, 0⟩⟩

/-- C10 counterexample: in initialize_hydro_variables the conserved
momentum of a capped cell is computed from the capped velocity, so after
the cap the stored primitive velocity STILL equals momentum over mass,
refuting the claimed inequality for that pass. -/
theorem claim_C10_cex :
    c10_params.max_velocity < c10_init.u.norm ∧
      (init_cell c10_params 1 c10_init).u =
        (1 / (init_cell c10_params 1 c10_init).m) •
          (init_cell c10_params 1 c10_init).mom := by
  constructor
  · norm_num [c10_params, c10_init, Vec3.norm, Vec3.norm2, sqrt_four]
  · norm_num [init_cell, c10_params, c10_init, cap_velocity, Vec3.norm, Vec3.norm2,
      sqrt_four, Vec3.ext_iff]

/-- Cell of the C10 witness: unit mass and volume, conserved momentum
two along x (recovered velocity of norm two against a cap of one) and
total energy ten, fully neutral hydrogen. -/
noncomputable def c10_cell : HydroCell :=
  ⟨1, 0, Vec3.zero, 0, Vec3.zero, Vec3.zero, Vec3.zero, Vec3.zero, Vec3.zero,
    1, ⟨2, 0, 0⟩, 10, 0, Vec3.zero, 0, 0, 0, Vec3.zero, 1, 0, 0⟩

theorem claim_C10_witness :
    ((primitive_recovery_cell c10_params c10_cell).u =
        (c10_params.max_velocity /
          (recovery_safe (recover_prim c10_params
            (c10_params.unit_vol * c10_cell.volume) c10_cell)).u.norm) •
          (recovery_safe (recover_prim c10_params
            (c10_params.unit_vol * c10_cell.volume) c10_cell)).u ∧
      (primitive_recovery_cell c10_params c10_cell).u.norm = c10_params.max_velocity ∧
      (primitive_recovery_cell c10_params c10_cell).m = c10_cell.m ∧
      (primitive_recovery_cell c10_params c10_cell).mom = c10_cell.mom ∧
      (primitive_recovery_cell c10_params c10_cell).E = c10_cell.E ∧
      (recovery_safe (recover_prim c10_params
        (c10_params.unit_vol * c10_cell.volume) c10_cell)).u =
          (1 / c10_cell.m) • c10_cell.mom ∧
      (primitive_recovery_cell c10_params c10_cell).u ≠
        (1 / c10_cell.m) • c10_cell.mom) ∧
    ((init_cell c10_params 1 c10_init).u =
        (c10_params.max_velocity / c10_init.u.norm) • c10_init.u ∧
      (init_cell c10_params 1 c10_init).u.norm = c10_params.max_velocity ∧
      (init_cell c10_params 1 c10_init).mom =
        (init_cell c10_params 1 c10_init).m • (init_cell c10_params 1 c10_init).u) := by
  refine claim_C10 c10_params c10_cell c10_params 1 c10_init ?_ ?_ ?_ ?_ ?_ ?_
  · norm_num [c10_params]
  · norm_num [recover_prim, recovery_safe, HydroParams.gm1, c10_params, c10_cell, Vec3.dot]
  · norm_num [recover_prim, recovery_safe, HydroParams.gm1, c10_params, c10_cell, Vec3.dot,
      Vec3.norm, Vec3.norm2, Vec3.smul_def, sqrt_four]
  · norm_num [c10_cell]
  · norm_num [c10_params]
  · norm_num [c10_params, c10_init, Vec3.norm, Vec3.norm2, sqrt_four]

theorem claim_C9_witness :
    (do_hydro_step_cell c1cex_params 1 ⟨0, Vec3.zero, 0⟩ c1cex_cell).energy_rate = 0 ∧
      (do_hydro_step_cell c1cex_params 1 ⟨0, Vec3.zero, 0⟩ c1cex_cell).energy = 0 ∧
      (do_hydro_step_cell c1cex_params 1 ⟨0, Vec3.zero, 0⟩ c1cex_cell).dm = 0 ∧
      (do_hydro_step_cell c1cex_params 1 ⟨0, Vec3.zero, 0⟩ c1cex_cell).dmom = Vec3.zero ∧
      (do_hydro_step_cell c1cex_params 1 ⟨0, Vec3.zero, 0⟩ c1cex_cell).dE = 0 :=
  claim_C9 c1cex_params 1 [⟨0, Vec3.zero, 0⟩] [c1cex_cell]
    (do_hydro_step_cell c1cex_params 1 ⟨0, Vec3.zero, 0⟩ c1cex_cell)
    (List.mem_singleton.mpr rfl)
